import Mathlib

/-!
# The hints handler of fleet-server (`internal/pkg/api/handleHints.go`)

A shallow embedding of the handler and of the enrollment-key lookup, followed by the
properties established about them.

Conventions of the embedding.

* A Go result `(*T, error)` is a pair `Option T × Option Error`: `none` is `nil`.
* The handler reaches its collaborators (`cache.Cache`, `bulk.Bulk`, package `dl`,
  `encoding/json`) through interfaces.  They are parameters of the embedding (`Env`), each
  with an explicit state that the handler threads through its calls.
* Every call made on a collaborator is appended to `HintHundler.calls`, oldest first, so that
  "is never invoked" and "is invoked exactly once with these arguments" are statements about
  that list.
-/

namespace FleetServer

/-! ## Data model -/

/-- Byte sequences (`[]byte`, the content of an `io.Reader`). -/
abbrev Bytes := List UInt8

/-- Why a `context.Context` is done (`ctx.Err()`). -/
inductive CtxErr where
  | Canceled
  | DeadlineExceeded
  deriving DecidableEq, Repr

/-- A `context.Context`, as far as a callee can observe it: `Err = none` while it is live. -/
structure Context where
  Err : Option CtxErr
  deriving DecidableEq, Repr

/-- The context is already canceled or timed out. -/
def Context.Done (ctx : Context) : Bool := ctx.Err.isSome

/-- Go `error` values.  `Wrap cause msg` is `errors.Wrap(cause, msg)`. -/
inductive Error where
  | ErrInactiveEnrollmentKey
  | ErrNotFound
  | ContextCanceled
  | DeadlineExceeded
  | Other (msg : String)
  | Wrap (cause : Error) (msg : String)
  deriving DecidableEq, Repr

/-- The innermost error of a chain of wraps (`errors.Cause`). -/
def Error.Cause : Error → Error
  | Error.Wrap cause _ => cause.Cause
  | e => e

/-- Modelled from the spec: the declaration of `model.EnrollmentAPIKey` is not among the
sources.  Spec §3 gives a credential record an identifier, the secret and the active flag;
the handler reads `Active` and `APIKey`. -/
structure EnrollmentAPIKey where
  Id : String
  APIKey : String
  Active : Bool
  deriving DecidableEq, Repr

/-- Modelled from the spec: the options of `bulk.Bulk` are not among the sources; the handler
uses `bulk.WithRefresh()`, the immediate-visibility directive of spec §4.1. -/
inductive Opt where
  | WithRefresh
  deriving DecidableEq, Repr

/-- A prepared query template (`*dsl.Tmpl`), identified by name. -/
abbrev Tmpl := String

/-! ## Collaborator interfaces -/

/-- The part of `cache.Cache` the handler uses, over a cache state `κ`.
`GetEnrollmentApiKey` returns `(key, ok)`: `some key` when `ok`. -/
structure Cache (κ : Type) where
  GetEnrollmentApiKey : κ → String → Option EnrollmentAPIKey
  SetEnrollmentApiKey : κ → String → EnrollmentAPIKey → Int → κ

/-- The part of `bulk.Bulk` the handler uses, over a store state `β`:
`Create(ctx, index, id, body, opts...) (string, error)`. -/
structure Bulk (β : Type) where
  Create : β → Context → String → String → Bytes → List Opt → (String × Option Error) × β

/-- The part of package `dl` the handler uses: three constants and the enrollment-key query
`FindEnrollmentAPIKey(ctx, bulker, tmpl, field, id) (rec, err)`. -/
structure DL (β : Type) where
  FleetHints : String
  QueryEnrollmentAPIKeyByID : Tmpl
  FieldAPIKeyID : String
  FindEnrollmentAPIKey : β → Context → Tmpl → String → String → Except Error EnrollmentAPIKey

/-- Modelled from the spec: the declaration of `HintsRequest` is not among the sources.  The
handler touches `AgentId` only; every other field of the schema is carried in `Rest`. -/
structure HintsRequest (ρ : Type) where
  AgentId : String
  Rest : ρ
  deriving DecidableEq, Repr

/-- Modelled from the spec: the declaration of `HintsResponse` is not among the sources; the
handler sets its `Action`. -/
structure HintsResponse where
  Action : String
  deriving DecidableEq, Repr

/-- The uses of `encoding/json`: `json.NewDecoder(body).Decode(&req)` on a request body and
`json.Marshal` of a request and of a response. -/
structure Json (ρ : Type) where
  Decode : Bytes → Except Error (HintsRequest ρ)
  Marshal : HintsRequest ρ → Except Error Bytes
  MarshalResponse : HintsResponse → Except Error Bytes

/-- The collaborators of a handler. -/
structure Env (κ β ρ : Type) where
  cache : Cache κ
  bulk : Bulk β
  dl : DL β
  json : Json ρ

/-- A call made on a collaborator. -/
inductive Call where
  | GetEnrollmentApiKey (id : String)
  | SetEnrollmentApiKey (id : String) (rec : EnrollmentAPIKey) (cost : Int)
  | FindEnrollmentAPIKey (ctx : Context) (tmpl : Tmpl) (field : String) (id : String)
  | Create (ctx : Context) (index : String) (id : String) (body : Bytes) (opts : List Opt)
  deriving DecidableEq, Repr

/-- The handler `HintHundler`: the states of its cache and of its bulker, and the log of the
calls made so far (`verCon` and `cfg` are never read). -/
structure HintHundler (κ β : Type) where
  bulker : β
  cache : κ
  calls : List Call

/-- An incoming `*http.Request`: its context and the bytes of its body. -/
structure Request where
  Context : Context
  Body : Bytes

variable {κ β ρ : Type}

/-! ## The enrollment-key lookup -/

/-- Method `(hh *HintHundler) fetchEnrollmentKeyRecord(ctx, id)`. -/
def HintHundler.fetchEnrollmentKeyRecord (E : Env κ β ρ) (hh : HintHundler κ β)
    (ctx : Context) (id : String) :
    (Option EnrollmentAPIKey × Option Error) × HintHundler κ β :=
  let hh1 := { hh with calls := hh.calls ++ [Call.GetEnrollmentApiKey id] }
  match E.cache.GetEnrollmentApiKey hh.cache id with
  | some key => ((some key, none), hh1)
  | none =>
    let hh2 := { hh1 with
      calls := hh1.calls ++
        [Call.FindEnrollmentAPIKey ctx E.dl.QueryEnrollmentAPIKeyByID E.dl.FieldAPIKeyID id] }
    match E.dl.FindEnrollmentAPIKey hh.bulker ctx
        E.dl.QueryEnrollmentAPIKeyByID E.dl.FieldAPIKeyID id with
    | Except.error err => ((none, some (Error.Wrap err "FindEnrollmentAPIKey")), hh2)
    | Except.ok rec =>
      if !rec.Active then
        ((none, some Error.ErrInactiveEnrollmentKey), hh2)
      else
        let cost : Int := Int.ofNat rec.APIKey.utf8ByteSize -- int64(len(rec.APIKey))
        ((some rec, none),
          { hh2 with
            cache := E.cache.SetEnrollmentApiKey hh2.cache id rec cost
            calls := hh2.calls ++ [Call.SetEnrollmentApiKey id rec cost] })

/-! ## The write path -/

/-- Function `createHint(ctx, bulker, id, hints)`; the bulker is `hh.bulker`. -/
def createHint (E : Env κ β ρ) (hh : HintHundler κ β) (ctx : Context) (id : String)
    (hints : HintsRequest ρ) : Option Error × HintHundler κ β :=
  match E.json.Marshal hints with
  | Except.error err => (some err, hh)
  | Except.ok data =>
    let r := E.bulk.Create hh.bulker ctx E.dl.FleetHints id data [Opt.WithRefresh]
    let hh1 := { hh with
      bulker := r.2
      calls := hh.calls ++ [Call.Create ctx E.dl.FleetHints id data [Opt.WithRefresh]] }
    match r.1.2 with
    | some err => (some err, hh1)
    | none => (none, hh1)

/-- Method `(hh *HintHundler) _create(ctx, zlog, req, id)`. -/
def HintHundler._create (E : Env κ β ρ) (hh : HintHundler κ β) (ctx : Context)
    (req : HintsRequest ρ) (id : String) :
    (Option HintsResponse × Option Error) × HintHundler κ β :=
  let req1 := { req with AgentId := id }
  match createHint E hh ctx id req1 with
  | (some err, hh1) => ((none, some err), hh1)
  | (none, hh1) =>
    let resp : HintsResponse := { Action := "created" }
    ((some resp, none), hh1)

/-- Function `decodeHintsRequest(data)`. -/
def decodeHintsRequest (E : Env κ β ρ) (data : Bytes) :
    Option (HintsRequest ρ) × Option Error :=
  match E.json.Decode data with
  | Except.error err => (none, some (Error.Wrap err "decode hints request"))
  | Except.ok req => (some req, none)

/-- Method `(hh *HintHundler) processRequest(zlog, w, r, id)`.  The enrollment-key check at
the head of the Go function is commented out there, and so is absent here. -/
def HintHundler.processRequest (E : Env κ β ρ) (hh : HintHundler κ β) (r : Request)
    (id : String) : (Option HintsResponse × Option Error) × HintHundler κ β :=
  let body := r.Body
  match decodeHintsRequest E body with
  | (_, some err) => ((none, some err), hh)
  | (some req, none) => hh._create E r.Context req id
  -- `decodeHintsRequest` never returns `(nil, nil)`; Go would dereference nil in `_create`
  | (none, none) => ((none, none), hh)

/-- Method `(hh *HintHundler) handleHints(zlog, w, r, id)`.  The API-key authentication and
the user-agent check of the Go function are commented out there, and so are absent here. -/
def HintHundler.handleHints (E : Env κ β ρ) (hh : HintHundler κ β) (r : Request)
    (id : String) : (Option HintsResponse × Option Error) × HintHundler κ β :=
  hh.processRequest E r id

/-- An `http.ResponseWriter` over a state `ω`: `Write(data) (int, error)`. -/
structure ResponseWriter (ω : Type) where
  Write : ω → Bytes → (Nat × Option Error) × ω

/-- What `wResponse` leaves behind: its error, the writer, the bytes handed to `w.Write` (if it
got that far) and the counter `cntEnroll.bodyOut`. -/
structure Written (ω : Type) where
  err : Option Error
  w : ω
  data : Option Bytes
  bodyOut : Nat

/-- Function `wResponse(zlog, w, resp, start)`; `bodyOut` is the 64-bit counter
`cntEnroll.bodyOut`. -/
def wResponse {ω : Type} (E : Env κ β ρ) (W : ResponseWriter ω) (w : ω) (bodyOut : Nat)
    (resp : HintsResponse) : Written ω :=
  match E.json.MarshalResponse resp with
  | Except.error err =>
    { err := some (Error.Wrap err "marshal hintsResponse"), w := w, data := none,
      bodyOut := bodyOut }
  | Except.ok data =>
    let r := W.Write w data
    let numWritten := r.1.1
    let bodyOut1 := (bodyOut + numWritten % 2 ^ 64) % 2 ^ 64
    match r.1.2 with
    | some err =>
      { err := some (Error.Wrap err "fail send hints response"), w := r.2, data := some data,
        bodyOut := bodyOut1 }
    | none => { err := none, w := r.2, data := some data, bodyOut := bodyOut1 }

/-! ## Collaborators modelled from the spec

None of `internal/pkg/cache`, `internal/pkg/bulk` and `internal/pkg/dl` is among the sources.
The models below follow spec §2, §4.1 and §4.2. -/

/-- An entry of the credential cache (spec §3): key, value copy, cost. -/
structure CacheEntry where
  key : String
  value : EnrollmentAPIKey
  cost : Int
  deriving DecidableEq, Repr

/-- Modelled from the spec: the credential cache of §2 and §4.2 (package `cache` is not among
the sources): "an in-memory, cost-bounded cache", here the capacity bound on the total cost
and the entries held, newest first. -/
structure MemCache where
  capacity : Int
  entries : List CacheEntry
  deriving DecidableEq, Repr

/-- The total cost of a list of entries. -/
def totalCost : List CacheEntry → Int
  | [] => 0
  | e :: es => e.cost + totalCost es

/-- Modelled from the spec: the entry evicted first (§4.2, "entries with larger cost are more
likely to be evicted sooner under memory pressure"): one of largest cost, the oldest of them. -/
def victim : List CacheEntry → Option CacheEntry
  | [] => none
  | e :: es =>
    match victim es with
    | none => some e
    | some v => if v.cost < e.cost then some e else some v

/-- Modelled from the spec: eviction under memory pressure; while the total cost exceeds the
capacity bound the victim is dropped (at most `fuel` times, one per entry). -/
def evict : Nat → Int → List CacheEntry → List CacheEntry
  | 0, _, es => es
  | fuel + 1, capacity, es =>
    if totalCost es ≤ capacity then es
    else
      match victim es with
      | none => es
      | some v => evict fuel capacity (es.erase v)

/-- Modelled from the spec: `get(identifier) → (record, found)` of §4.2, "returns the currently
cached value copy if present; never triggers a store lookup". -/
def MemCache.get (c : MemCache) (id : String) : Option EnrollmentAPIKey :=
  (c.entries.find? (fun e => e.key == id)).map (fun e => e.value)

/-- Modelled from the spec: `set(identifier, record, cost)` of §4.2, "inserts or replaces the
entry", followed by the eviction that keeps the total cost within the capacity bound. -/
def MemCache.set (c : MemCache) (id : String) (rec : EnrollmentAPIKey) (cost : Int) :
    MemCache :=
  let inserted :=
    { key := id, value := rec, cost := cost } :: c.entries.filter (fun e => !(e.key == id))
  { c with entries := evict inserted.length c.capacity inserted }

/-- The credential cache of the spec behind the interface the handler uses. -/
def memCache : Cache MemCache where
  GetEnrollmentApiKey := MemCache.get
  SetEnrollmentApiKey := MemCache.set

/-- A stored document: collection, key, payload. -/
structure Document where
  index : String
  id : String
  body : Bytes
  deriving DecidableEq, Repr

/-- Modelled from the spec: the document store behind the gateway of §4.1 (package `bulk` and
the store are not among the sources).  `visible` are the documents a read finds, `pending` those
written without the immediate-visibility directive and not yet visible, `keys` the credential
records, and `down` says that the store rejects writes (transport failure, quota). -/
structure Gateway where
  visible : List Document
  pending : List Document
  keys : List EnrollmentAPIKey
  down : Bool
  deriving DecidableEq, Repr

/-- The error a call on a done context is aborted with (spec §5). -/
def CtxErr.toError : CtxErr → Error
  | CtxErr.Canceled => Error.ContextCanceled
  | CtxErr.DeadlineExceeded => Error.DeadlineExceeded

/-- The gateway's `StoreWriteError` of spec §4.1. -/
def StoreWriteError : Error := Error.Other "StoreWriteError"

/-- Whether the store holds a document under this key of this collection, visible or not. -/
def Gateway.holds (g : Gateway) (index id : String) : Bool :=
  (g.visible ++ g.pending).any (fun d => d.index == index && d.id == id)

/-- Modelled from the spec: `create(collection, key, payload, visibilityDirective)` of §4.1.  A
call on a done context is aborted (§5); the write fails with `StoreWriteError` on a transport
or server-side rejection, among them a conflicting key; with the immediate-visibility directive
the document is readable when the call returns, otherwise it becomes so later. -/
def Gateway.Create (g : Gateway) (ctx : Context) (index id : String) (body : Bytes)
    (opts : List Opt) : (String × Option Error) × Gateway :=
  match ctx.Err with
  | some e => (("", some e.toError), g)
  | none =>
    if g.down || g.holds index id then
      (("", some StoreWriteError), g)
    else if opts.contains Opt.WithRefresh then
      ((id, none), { g with visible := { index := index, id := id, body := body } :: g.visible })
    else
      ((id, none), { g with pending := { index := index, id := id, body := body } :: g.pending })

/-- Modelled from the spec: `read(collection, key) → payload | NotFoundError` of §4.1. -/
def Gateway.Read (g : Gateway) (index id : String) : Option Bytes × Option Error :=
  match g.visible.find? (fun d => d.index == index && d.id == id) with
  | some d => (some d.body, none)
  | none => (none, some Error.ErrNotFound)

/-- Modelled from the spec: the store making the deferred writes visible ("eventually
consistent", §4.1). -/
def Gateway.Refresh (g : Gateway) : Gateway :=
  { g with visible := g.pending ++ g.visible, pending := [] }

/-- Modelled from the spec: `query(collection, predicate)` of §4.1 for the exact match on the
credential identifier: the record, or the not-found error; aborted on a done context. -/
def Gateway.FindEnrollmentAPIKey (g : Gateway) (ctx : Context) (_tmpl : Tmpl)
    (_field : String) (id : String) : Except Error EnrollmentAPIKey :=
  match ctx.Err with
  | some e => Except.error e.toError
  | none =>
    match g.keys.find? (fun k => k.Id == id) with
    | some k => Except.ok k
    | none => Except.error Error.ErrNotFound

/-- The gateway of the spec behind `bulk.Bulk`. -/
def gatewayBulk : Bulk Gateway where
  Create := Gateway.Create

/-- Package `dl` over the gateway of the spec.  The three constants are not among the sources;
the values are placeholders and nothing depends on them. -/
def gatewayDL : DL Gateway where
  FleetHints := ".fleet-hints"
  QueryEnrollmentAPIKeyByID := "QueryEnrollmentAPIKeyByID"
  FieldAPIKeyID := "api_key_id"
  FindEnrollmentAPIKey := Gateway.FindEnrollmentAPIKey

/-! ## A JSON codec for the one-field request

`encoding/json` is a library and the request schema is not among the sources.  For concrete
runs the request is taken with `agentId` as its only field (the body of spec §8), encoded as
`encoding/json` encodes a string, and decoded on a fragment of JSON. -/

/-- The UTF-8 bytes of a string (`[]byte(s)`). -/
def utf8 (s : String) : Bytes := s.toList.flatMap String.utf8EncodeChar

/-- The four hexadecimal digits of a code unit. -/
def hex4 (n : Nat) : List Char :=
  let digit (d : Nat) : Char := if d < 10 then Char.ofNat (48 + d) else Char.ofNat (87 + d)
  [digit (n / 4096 % 16), digit (n / 256 % 16), digit (n / 16 % 16), digit (n % 16)]

/-- The escaping of one character inside a JSON string, as `json.Marshal` does it: the quote,
the backslash, the control characters, the HTML-sensitive characters and the line separators
U+2028 and U+2029. -/
def escapeChar (c : Char) : List Char :=
  if c = '"' then ['\\', '"']
  else if c = '\\' then ['\\', '\\']
  else if c = '\n' then ['\\', 'n']
  else if c = '\r' then ['\\', 'r']
  else if c = '\t' then ['\\', 't']
  else if c.toNat < 32 ∨ c = '<' ∨ c = '>' ∨ c = '&' ∨ c.toNat = 8232 ∨ c.toNat = 8233 then
    '\\' :: 'u' :: hex4 c.toNat
  else [c]

/-- A JSON string literal. -/
def jsonString (s : String) : String :=
  "\"" ++ String.mk (s.toList.flatMap escapeChar) ++ "\""

/-- Modelled from the spec: `json.Marshal` of a request whose only field is `agentId` (the
schema is not among the sources; spec §8 gives the body `{"agentId":""}`). -/
def marshalHintsRequest (r : HintsRequest Unit) : Bytes :=
  utf8 ("\x7b\"agentId\":" ++ jsonString r.AgentId ++ "\x7d")

/-- Modelled from the spec: `json.Marshal` of a response (the schema is not among the sources;
spec §6 and §8 give the body `{"action":"created"}`). -/
def marshalHintsResponse (r : HintsResponse) : Bytes :=
  utf8 ("\x7b\"action\":" ++ jsonString r.Action ++ "\x7d")

/-- Drops leading JSON white space. -/
def skipSpace : Bytes → Bytes
  | [] => []
  | b :: bs => if b = 32 ∨ b = 9 ∨ b = 10 ∨ b = 13 then skipSpace bs else b :: bs

/-- The decoder's error on input that ends inside a value. -/
def errUnexpectedEOF : Error := Error.Other "unexpected EOF"

/-- The decoder's error on a byte that cannot continue a value. -/
def errInvalidCharacter : Error := Error.Other "invalid character"

/-- Reads a string literal after its opening quote, up to and including the closing quote:
the content and the remaining input.  Only plain ASCII content is accepted (no escapes). -/
def readPlain : Bytes → List Char → Except Error (String × Bytes)
  | [], _ => Except.error errUnexpectedEOF
  | b :: bs, acc =>
    if b = 34 then Except.ok (String.mk acc.reverse, bs)
    else if b = 92 ∨ b < 32 ∨ 127 < b then Except.error errInvalidCharacter
    else readPlain bs (Char.ofNat b.toNat :: acc)

/-- Decoding of a request on a fragment of JSON: the first value of the body must be an object
with no member or with one member whose value is a plain string; a member named `agentId`
(in any letter case) sets `AgentId`, any other name is ignored; what follows the object is
not read.  Anything else is rejected, also JSON that a full decoder accepts. -/
def decodeFragment (body : Bytes) : Except Error (HintsRequest Unit) :=
  match skipSpace body with
  | [] => Except.error (Error.Other "EOF")
  | b0 :: r0 =>
    if b0 ≠ 123 then Except.error errInvalidCharacter else
    match skipSpace r0 with
    | [] => Except.error errUnexpectedEOF
    | b1 :: r1 =>
      if b1 = 125 then Except.ok { AgentId := "", Rest := () } else
      if b1 ≠ 34 then Except.error errInvalidCharacter else
      match readPlain r1 [] with
      | Except.error err => Except.error err
      | Except.ok (name, r2) =>
        match skipSpace r2 with
        | [] => Except.error errUnexpectedEOF
        | b3 :: r3 =>
          if b3 ≠ 58 then Except.error errInvalidCharacter else
          match skipSpace r3 with
          | [] => Except.error errUnexpectedEOF
          | b4 :: r4 =>
            if b4 ≠ 34 then Except.error errInvalidCharacter else
            match readPlain r4 [] with
            | Except.error err => Except.error err
            | Except.ok (value, r5) =>
              match skipSpace r5 with
              | [] => Except.error errUnexpectedEOF
              | b6 :: _ =>
                if b6 ≠ 125 then Except.error errInvalidCharacter else
                if name.toList.map Char.toLower = "agentid".toList then
                  Except.ok { AgentId := value, Rest := () }
                else Except.ok { AgentId := "", Rest := () }

/-- The codec for the one-field request. -/
def fragmentJson : Json Unit where
  Decode := decodeFragment
  Marshal := fun r => Except.ok (marshalHintsRequest r)
  MarshalResponse := fun r => Except.ok (marshalHintsResponse r)

/-- The handler's collaborators as the spec describes them. -/
def specEnv : Env MemCache Gateway Unit where
  cache := memCache
  bulk := gatewayBulk
  dl := gatewayDL
  json := fragmentJson

/-! ## Concrete states used in the examples -/

/-- A live context. -/
def liveCtx : Context := { Err := none }

/-- A context that is already canceled. -/
def canceledCtx : Context := { Err := some CtxErr.Canceled }

/-- The active credential of spec §8: identifier `key-123`, a secret of 16 bytes. -/
def key123 : EnrollmentAPIKey :=
  { Id := "key-123", APIKey := "0123456789abcdef", Active := true }

/-- The inactive credential of spec §8: identifier `key-456`. -/
def key456 : EnrollmentAPIKey :=
  { Id := "key-456", APIKey := "fedcba9876543210", Active := false }

/-- An empty cache with room for a total cost of 1024. -/
def cache0 : MemCache := { capacity := 1024, entries := [] }

/-- An empty cache with room for a total cost of 8 only. -/
def cacheSmall : MemCache := { capacity := 8, entries := [] }

/-- A store holding the two credentials and no document. -/
def store0 : Gateway :=
  { visible := [], pending := [], keys := [key123, key456], down := false }

/-- A handler with an empty cache over `store0`, before any call. -/
def hh0 : HintHundler MemCache Gateway := { bulker := store0, cache := cache0, calls := [] }

/-- A handler over `store0` whose cache holds a copy of `key-456` from when it was active. -/
def hhStale : HintHundler MemCache Gateway :=
  { bulker := store0
    cache := { cache0 with
      entries := [{ key := "key-456", value := { key456 with Active := true }, cost := 16 }] }
    calls := [] }

/-- A handler over `store0` whose cache holds `key-123`. -/
def hhWarm : HintHundler MemCache Gateway :=
  { bulker := store0
    cache := { cache0 with entries := [{ key := "key-123", value := key123, cost := 16 }] }
    calls := [] }

/-- A handler over `store0` whose cache holds a record marked inactive under `key-456`. -/
def hhInactive : HintHundler MemCache Gateway :=
  { bulker := store0
    cache := { cache0 with entries := [{ key := "key-456", value := key456, cost := 16 }] }
    calls := [] }

/-- A store in which no credential is active: `key-456` is inactive, every other identifier
is absent. -/
def storeNoActive : Gateway :=
  { visible := [], pending := [], keys := [key456], down := false }

/-- A handler over `store0` whose empty cache has a capacity of 8, before any call. -/
def hhSmall : HintHundler MemCache Gateway :=
  { bulker := store0, cache := cacheSmall, calls := [] }

/-- A handler with an empty cache over `storeNoActive`, before any call. -/
def hhNoActive : HintHundler MemCache Gateway :=
  { bulker := storeNoActive, cache := cache0, calls := [] }

/-- A handler with an empty cache over a store that rejects writes. -/
def hhDown : HintHundler MemCache Gateway :=
  { bulker := { store0 with down := true }, cache := cache0, calls := [] }

/-- The request of spec §8: a live context and the body `{"agentId":""}`. -/
def req0 : Request := { Context := liveCtx, Body := utf8 "\x7b\"agentId\":\"\"\x7d" }

/-- A request whose body is cut off inside the object. -/
def reqTruncated : Request := { Context := liveCtx, Body := utf8 "\x7b\"agentId\":" }

/-! ## Vocabulary of the statements -/

/-- The look-up query as `fetchEnrollmentKeyRecord` issues it. -/
def findCall (E : Env κ β ρ) (ctx : Context) (id : String) : Call :=
  Call.FindEnrollmentAPIKey ctx E.dl.QueryEnrollmentAPIKeyByID E.dl.FieldAPIKeyID id

/-- The store's answer to the look-up query of `fetchEnrollmentKeyRecord`. -/
def findAnswer (E : Env κ β ρ) (hh : HintHundler κ β) (ctx : Context) (id : String) :
    Except Error EnrollmentAPIKey :=
  E.dl.FindEnrollmentAPIKey hh.bulker ctx E.dl.QueryEnrollmentAPIKeyByID E.dl.FieldAPIKeyID id

/-- The `Create` call as `createHint` issues it. -/
def createCall (E : Env κ β ρ) (ctx : Context) (id : String) (data : Bytes) : Call :=
  Call.Create ctx E.dl.FleetHints id data [Opt.WithRefresh]

/-- The gateway's answer to the `Create` call of `createHint`. -/
def createAnswer (E : Env κ β ρ) (hh : HintHundler κ β) (ctx : Context) (id : String)
    (data : Bytes) : (String × Option Error) × β :=
  E.bulk.Create hh.bulker ctx E.dl.FleetHints id data [Opt.WithRefresh]

/-- The handler after the `Create` call of `createHint`. -/
def afterCreate (E : Env κ β ρ) (hh : HintHundler κ β) (ctx : Context) (id : String)
    (data : Bytes) : HintHundler κ β :=
  { hh with
    bulker := (createAnswer E hh ctx id data).2
    calls := hh.calls ++ [createCall E ctx id data] }

/-- What `_create` returns for the error of `createHint`. -/
def created : Option Error → Option HintsResponse × Option Error
  | some err => (none, some err)
  | none => (some { Action := "created" }, none)

/-- A Go result `(resp, err)` with exactly one of the two non-nil. -/
def exactlyOne (out : Option HintsResponse × Option Error) : Bool :=
  out.1.isSome != out.2.isSome

/-! ## Properties of the enrollment-key lookup -/

/-- The lookup on a cache hit. -/
theorem fetch_hit (E : Env κ β ρ) (hh : HintHundler κ β) (ctx : Context) (id : String)
    (key : EnrollmentAPIKey) (hit : E.cache.GetEnrollmentApiKey hh.cache id = some key) :
    hh.fetchEnrollmentKeyRecord E ctx id =
      ((some key, none), { hh with calls := hh.calls ++ [Call.GetEnrollmentApiKey id] }) := by
  simp [HintHundler.fetchEnrollmentKeyRecord, hit]

/-- The lookup on a miss when the store query fails. -/
theorem fetch_miss_error (E : Env κ β ρ) (hh : HintHundler κ β) (ctx : Context) (id : String)
    (err : Error) (miss : E.cache.GetEnrollmentApiKey hh.cache id = none)
    (failed : findAnswer E hh ctx id = Except.error err) :
    hh.fetchEnrollmentKeyRecord E ctx id =
      ((none, some (Error.Wrap err "FindEnrollmentAPIKey")),
        { hh with calls := hh.calls ++ [Call.GetEnrollmentApiKey id, findCall E ctx id] }) := by
  unfold findAnswer at failed
  simp [HintHundler.fetchEnrollmentKeyRecord, miss, failed, findCall]

/-- The lookup on a miss when the store returns an inactive record. -/
theorem fetch_miss_inactive (E : Env κ β ρ) (hh : HintHundler κ β) (ctx : Context)
    (id : String) (rec : EnrollmentAPIKey)
    (miss : E.cache.GetEnrollmentApiKey hh.cache id = none)
    (found : findAnswer E hh ctx id = Except.ok rec) (inactive : rec.Active = false) :
    hh.fetchEnrollmentKeyRecord E ctx id =
      ((none, some Error.ErrInactiveEnrollmentKey),
        { hh with calls := hh.calls ++ [Call.GetEnrollmentApiKey id, findCall E ctx id] }) := by
  unfold findAnswer at found
  simp [HintHundler.fetchEnrollmentKeyRecord, miss, found, inactive, findCall]

/-- The lookup on a miss when the store returns an active record. -/
theorem fetch_miss_active (E : Env κ β ρ) (hh : HintHundler κ β) (ctx : Context)
    (id : String) (rec : EnrollmentAPIKey)
    (miss : E.cache.GetEnrollmentApiKey hh.cache id = none)
    (found : findAnswer E hh ctx id = Except.ok rec) (active : rec.Active = true) :
    hh.fetchEnrollmentKeyRecord E ctx id =
      ((some rec, none),
        { hh with
          cache := E.cache.SetEnrollmentApiKey hh.cache id rec (Int.ofNat rec.APIKey.utf8ByteSize)
          calls := hh.calls ++ [Call.GetEnrollmentApiKey id, findCall E ctx id,
            Call.SetEnrollmentApiKey id rec (Int.ofNat rec.APIKey.utf8ByteSize)] }) := by
  unfold findAnswer at found
  simp [HintHundler.fetchEnrollmentKeyRecord, miss, found, active, findCall]

/-- A key that misses the cache of the spec is the key of no entry. -/
theorem MemCache.filter_of_miss (c : MemCache) (id : String) (miss : c.get id = none) :
    c.entries.filter (fun e => !(e.key == id)) = c.entries := by
  unfold MemCache.get at miss
  rw [Option.map_eq_none'] at miss
  rw [List.filter_eq_self]
  intro e he
  have h := List.find?_eq_none.mp miss e he
  simpa using h

/-- In the cache of the spec, an entry that fits within the capacity bound together with the
entries held under other keys is found by a `get` right after its `set`. -/
theorem MemCache.get_set_of_fits (c : MemCache) (id : String) (rec : EnrollmentAPIKey)
    (cost : Int)
    (fits : cost + totalCost (c.entries.filter (fun e => !(e.key == id))) ≤ c.capacity) :
    (c.set id rec cost).get id = some rec := by
  have h : totalCost ({ key := id, value := rec, cost := cost } ::
      c.entries.filter (fun e => !(e.key == id))) ≤ c.capacity := fits
  simp [MemCache.get, MemCache.set, evict, h]

/-- Eviction in the cache of the spec: under a capacity of 32 holding costs 16 and 8, a `set`
of cost 12 evicts the entry of cost 16 and keeps the other two. -/
theorem MemCache.set_evicts_largest :
    (({ capacity := 32
        entries := [{ key := "a", value := key123, cost := 16 },
          { key := "b", value := key456, cost := 8 }] } : MemCache).set "c" key123 12).entries =
      [{ key := "c", value := key123, cost := 12 }, { key := "b", value := key456, cost := 8 }] :=
  rfl

/-- Staleness: a copy cached while `key-456` was active is still returned after the store has
marked the key inactive. -/
theorem fetch_stale :
    findAnswer specEnv hhStale liveCtx "key-456" = Except.ok key456 ∧ key456.Active = false ∧
    (hhStale.fetchEnrollmentKeyRecord specEnv liveCtx "key-456").1 =
      (some { key456 with Active := true }, none) :=
  ⟨rfl, rfl, rfl⟩

/-- C1: whenever `GetEnrollmentApiKey(id)` reports `(key, true)`, `fetchEnrollmentKeyRecord(id)`
returns exactly `key` with a nil error; the only call it makes is that one cache read, so there
is no store query and no cache set, and cache and store are left as they were.  Nothing is
assumed of `key.Active` or of the store. -/
theorem fetchEnrollmentKeyRecord_cache_hit (E : Env κ β ρ) (hh : HintHundler κ β)
    (ctx : Context) (id : String) (key : EnrollmentAPIKey)
    (hit : E.cache.GetEnrollmentApiKey hh.cache id = some key) :
    (hh.fetchEnrollmentKeyRecord E ctx id).1 = (some key, none) ∧
    (hh.fetchEnrollmentKeyRecord E ctx id).2.calls =
      hh.calls ++ [Call.GetEnrollmentApiKey id] ∧
    (hh.fetchEnrollmentKeyRecord E ctx id).2.cache = hh.cache ∧
    (hh.fetchEnrollmentKeyRecord E ctx id).2.bulker = hh.bulker := by
  rw [fetch_hit E hh ctx id key hit]
  exact ⟨rfl, rfl, rfl, rfl⟩

/-- C1 at a cached record that is marked inactive, which the store would also report
inactive: the cached record is returned all the same. -/
theorem fetchEnrollmentKeyRecord_cache_hit_witness :
    memCache.GetEnrollmentApiKey hhInactive.cache "key-456" = some key456 ∧
    ((hhInactive.fetchEnrollmentKeyRecord specEnv liveCtx "key-456").1 = (some key456, none) ∧
    (hhInactive.fetchEnrollmentKeyRecord specEnv liveCtx "key-456").2.calls =
      hhInactive.calls ++ [Call.GetEnrollmentApiKey "key-456"] ∧
    (hhInactive.fetchEnrollmentKeyRecord specEnv liveCtx "key-456").2.cache = hhInactive.cache ∧
    (hhInactive.fetchEnrollmentKeyRecord specEnv liveCtx "key-456").2.bulker =
      hhInactive.bulker) :=
  ⟨rfl, fetchEnrollmentKeyRecord_cache_hit specEnv hhInactive liveCtx "key-456" key456 rfl⟩

/-- C2: when `id` misses the cache and the store query returns a record with `Active = false`,
`fetchEnrollmentKeyRecord(id)` returns no record and `ErrInactiveEnrollmentKey`; its calls are
the cache read and the store query, so no `SetEnrollmentApiKey`; the cache state is unchanged
and a subsequent `GetEnrollmentApiKey(id)` still misses. -/
theorem fetchEnrollmentKeyRecord_inactive (E : Env κ β ρ) (hh : HintHundler κ β)
    (ctx : Context) (id : String) (rec : EnrollmentAPIKey)
    (miss : E.cache.GetEnrollmentApiKey hh.cache id = none)
    (found : findAnswer E hh ctx id = Except.ok rec) (inactive : rec.Active = false) :
    (hh.fetchEnrollmentKeyRecord E ctx id).1 = (none, some Error.ErrInactiveEnrollmentKey) ∧
    (hh.fetchEnrollmentKeyRecord E ctx id).2.calls =
      hh.calls ++ [Call.GetEnrollmentApiKey id, findCall E ctx id] ∧
    (hh.fetchEnrollmentKeyRecord E ctx id).2.cache = hh.cache ∧
    E.cache.GetEnrollmentApiKey (hh.fetchEnrollmentKeyRecord E ctx id).2.cache id = none := by
  rw [fetch_miss_inactive E hh ctx id rec miss found inactive]
  exact ⟨rfl, rfl, rfl, miss⟩

/-- C2 at the scenario of spec §8: identifier `key-456`, active = false. -/
theorem fetchEnrollmentKeyRecord_inactive_witness :
    (memCache.GetEnrollmentApiKey hh0.cache "key-456" = none ∧
      findAnswer specEnv hh0 liveCtx "key-456" = Except.ok key456 ∧ key456.Active = false) ∧
    ((hh0.fetchEnrollmentKeyRecord specEnv liveCtx "key-456").1 =
      (none, some Error.ErrInactiveEnrollmentKey) ∧
    (hh0.fetchEnrollmentKeyRecord specEnv liveCtx "key-456").2.calls =
      hh0.calls ++ [Call.GetEnrollmentApiKey "key-456", findCall specEnv liveCtx "key-456"] ∧
    (hh0.fetchEnrollmentKeyRecord specEnv liveCtx "key-456").2.cache = hh0.cache ∧
    memCache.GetEnrollmentApiKey
      (hh0.fetchEnrollmentKeyRecord specEnv liveCtx "key-456").2.cache "key-456" = none) :=
  ⟨⟨rfl, rfl, rfl⟩,
    fetchEnrollmentKeyRecord_inactive specEnv hh0 liveCtx "key-456" key456 rfl rfl rfl⟩

/-- C3, as stated, fails over a cost-bounded cache: `key-123`, active, with its secret of 16
bytes misses an empty cache of capacity 8; the lookup returns the record and makes the one
`SetEnrollmentApiKey("key-123", rec, 16)` call, and the entry is evicted at once, so that
`get("key-123")` afterwards reports found = false. -/
theorem active_lookup_not_retained :
    (hhSmall.cache.get "key-123" = none ∧
      findAnswer specEnv hhSmall liveCtx "key-123" = Except.ok key123 ∧
      key123.Active = true) ∧
    (hhSmall.fetchEnrollmentKeyRecord specEnv liveCtx "key-123").1 = (some key123, none) ∧
    (hhSmall.fetchEnrollmentKeyRecord specEnv liveCtx "key-123").2.calls =
      [Call.GetEnrollmentApiKey "key-123", findCall specEnv liveCtx "key-123",
        Call.SetEnrollmentApiKey "key-123" key123 16] ∧
    ((hhSmall.fetchEnrollmentKeyRecord specEnv liveCtx "key-123").2.cache).get "key-123" =
      none :=
  ⟨⟨rfl, rfl, rfl⟩, rfl, rfl, rfl⟩

/-- C3, amended: over the cost-bounded cache of spec §4.2, when `id` misses the cache and the
store query returns a record `rec` with `Active = true`, `fetchEnrollmentKeyRecord(id)` returns
`rec` with a nil error; its calls are the cache read, the store query and one
`SetEnrollmentApiKey(id, rec, cost)` with `cost` the byte length of `rec.APIKey`; the cache is
left as that `set` leaves it; and afterwards `get(id)` reports `(rec, true)` whenever `cost`
fits within the capacity bound together with the entries already held. -/
theorem fetchEnrollmentKeyRecord_active (B : Bulk β) (D : DL β) (J : Json ρ)
    (hh : HintHundler MemCache β) (ctx : Context) (id : String) (rec : EnrollmentAPIKey)
    (miss : hh.cache.get id = none)
    (found : findAnswer ⟨memCache, B, D, J⟩ hh ctx id = Except.ok rec)
    (active : rec.Active = true) :
    (hh.fetchEnrollmentKeyRecord ⟨memCache, B, D, J⟩ ctx id).1 = (some rec, none) ∧
    (hh.fetchEnrollmentKeyRecord ⟨memCache, B, D, J⟩ ctx id).2.calls =
      hh.calls ++ [Call.GetEnrollmentApiKey id, findCall ⟨memCache, B, D, J⟩ ctx id,
        Call.SetEnrollmentApiKey id rec (Int.ofNat rec.APIKey.utf8ByteSize)] ∧
    (hh.fetchEnrollmentKeyRecord ⟨memCache, B, D, J⟩ ctx id).2.cache =
      hh.cache.set id rec (Int.ofNat rec.APIKey.utf8ByteSize) ∧
    (Int.ofNat rec.APIKey.utf8ByteSize + totalCost hh.cache.entries ≤ hh.cache.capacity →
      ((hh.fetchEnrollmentKeyRecord ⟨memCache, B, D, J⟩ ctx id).2.cache).get id =
        some rec) := by
  rw [fetch_miss_active ⟨memCache, B, D, J⟩ hh ctx id rec miss found active]
  refine ⟨rfl, rfl, rfl, fun fits => ?_⟩
  apply MemCache.get_set_of_fits
  rw [MemCache.filter_of_miss hh.cache id miss]
  exact fits

/-- C3, amended, at the scenario of spec §8: identifier `key-123`, a secret of 16 bytes,
active = true, an empty cache of capacity 1024; the recorded cost is 16 and `get("key-123")`
afterwards reports the record. -/
theorem fetchEnrollmentKeyRecord_active_witness :
    (hh0.cache.get "key-123" = none ∧
      findAnswer ⟨memCache, gatewayBulk, gatewayDL, fragmentJson⟩ hh0 liveCtx "key-123" =
        Except.ok key123 ∧
      key123.Active = true ∧ Int.ofNat key123.APIKey.utf8ByteSize = 16 ∧
      Int.ofNat key123.APIKey.utf8ByteSize + totalCost hh0.cache.entries ≤
        hh0.cache.capacity) ∧
    (hh0.fetchEnrollmentKeyRecord ⟨memCache, gatewayBulk, gatewayDL, fragmentJson⟩
        liveCtx "key-123").1 = (some key123, none) ∧
    (hh0.fetchEnrollmentKeyRecord ⟨memCache, gatewayBulk, gatewayDL, fragmentJson⟩
        liveCtx "key-123").2.calls =
      hh0.calls ++ [Call.GetEnrollmentApiKey "key-123",
        findCall ⟨memCache, gatewayBulk, gatewayDL, fragmentJson⟩ liveCtx "key-123",
        Call.SetEnrollmentApiKey "key-123" key123 16] ∧
    ((hh0.fetchEnrollmentKeyRecord ⟨memCache, gatewayBulk, gatewayDL, fragmentJson⟩
        liveCtx "key-123").2.cache).get "key-123" = some key123 :=
  have h := fetchEnrollmentKeyRecord_active gatewayBulk gatewayDL fragmentJson hh0 liveCtx
    "key-123" key123 rfl rfl rfl
  ⟨⟨rfl, rfl, rfl, rfl, by decide⟩, h.1, h.2.1, h.2.2.2 (by decide)⟩

/-- C4: when `id` misses the cache and the store query fails with `err` (among them the
store's `ErrNotFound` when no record matches), `fetchEnrollmentKeyRecord(id)` returns no record
and `err` wrapped with the operation name `FindEnrollmentAPIKey`, whose cause is that of
`err`; its calls are the cache read and the store query, so no `SetEnrollmentApiKey`; the cache
is unchanged and `id` still misses it. -/
theorem fetchEnrollmentKeyRecord_store_error (E : Env κ β ρ) (hh : HintHundler κ β)
    (ctx : Context) (id : String) (err : Error)
    (miss : E.cache.GetEnrollmentApiKey hh.cache id = none)
    (failed : findAnswer E hh ctx id = Except.error err) :
    (hh.fetchEnrollmentKeyRecord E ctx id).1 =
      (none, some (Error.Wrap err "FindEnrollmentAPIKey")) ∧
    (Error.Wrap err "FindEnrollmentAPIKey").Cause = err.Cause ∧
    (hh.fetchEnrollmentKeyRecord E ctx id).2.calls =
      hh.calls ++ [Call.GetEnrollmentApiKey id, findCall E ctx id] ∧
    (hh.fetchEnrollmentKeyRecord E ctx id).2.cache = hh.cache ∧
    E.cache.GetEnrollmentApiKey (hh.fetchEnrollmentKeyRecord E ctx id).2.cache id = none := by
  rw [fetch_miss_error E hh ctx id err miss failed]
  exact ⟨rfl, rfl, rfl, rfl, miss⟩

/-- C4 at an identifier the store has no record for: the error is `ErrNotFound`, wrapped. -/
theorem fetchEnrollmentKeyRecord_store_error_witness :
    (memCache.GetEnrollmentApiKey hh0.cache "key-789" = none ∧
      findAnswer specEnv hh0 liveCtx "key-789" = Except.error Error.ErrNotFound) ∧
    ((hh0.fetchEnrollmentKeyRecord specEnv liveCtx "key-789").1 =
      (none, some (Error.Wrap Error.ErrNotFound "FindEnrollmentAPIKey")) ∧
    (Error.Wrap Error.ErrNotFound "FindEnrollmentAPIKey").Cause = Error.ErrNotFound.Cause ∧
    (hh0.fetchEnrollmentKeyRecord specEnv liveCtx "key-789").2.calls =
      hh0.calls ++ [Call.GetEnrollmentApiKey "key-789", findCall specEnv liveCtx "key-789"] ∧
    (hh0.fetchEnrollmentKeyRecord specEnv liveCtx "key-789").2.cache = hh0.cache ∧
    memCache.GetEnrollmentApiKey
      (hh0.fetchEnrollmentKeyRecord specEnv liveCtx "key-789").2.cache "key-789" = none) :=
  ⟨⟨rfl, rfl⟩, fetchEnrollmentKeyRecord_store_error specEnv hh0 liveCtx "key-789"
    Error.ErrNotFound rfl rfl⟩

/-- C10, as stated, fails: with a context that is already canceled and `key-123` in the cache,
`fetchEnrollmentKeyRecord` reads the cache and returns the cached record. -/
theorem canceled_lookup_reads_cache :
    canceledCtx.Done = true ∧
    (hhWarm.fetchEnrollmentKeyRecord specEnv canceledCtx "key-123").2.calls =
      [Call.GetEnrollmentApiKey "key-123"] ∧
    (hhWarm.fetchEnrollmentKeyRecord specEnv canceledCtx "key-123").1 = (some key123, none) :=
  ⟨rfl, rfl, rfl⟩

/-- C10, amended: `fetchEnrollmentKeyRecord` does not look at the context.  When the context is
already done and the store aborts queries on a done context, the call still reads the cache
once, first, and makes no `SetEnrollmentApiKey` call (its calls are the cache read alone on a
hit, the cache read and the aborted store query on a miss), the cache is unchanged, the record
returned is the cached one if there is one and none otherwise, and on a miss the error is the
abort error, wrapped. -/
theorem fetchEnrollmentKeyRecord_canceled (E : Env κ β ρ) (hh : HintHundler κ β)
    (ctx : Context) (id : String) (done : ctx.Done = true)
    (aborts : ∀ c : Context, c.Done = true → ∃ err, findAnswer E hh c id = Except.error err) :
    ((hh.fetchEnrollmentKeyRecord E ctx id).2.calls =
        hh.calls ++ [Call.GetEnrollmentApiKey id] ∨
      (hh.fetchEnrollmentKeyRecord E ctx id).2.calls =
        hh.calls ++ [Call.GetEnrollmentApiKey id, findCall E ctx id]) ∧
    (hh.fetchEnrollmentKeyRecord E ctx id).2.cache = hh.cache ∧
    (hh.fetchEnrollmentKeyRecord E ctx id).1.1 = E.cache.GetEnrollmentApiKey hh.cache id ∧
    (E.cache.GetEnrollmentApiKey hh.cache id = none →
      ∃ err, findAnswer E hh ctx id = Except.error err ∧
        (hh.fetchEnrollmentKeyRecord E ctx id).1 =
          (none, some (Error.Wrap err "FindEnrollmentAPIKey"))) := by
  obtain ⟨err, failed⟩ := aborts ctx done
  cases hget : E.cache.GetEnrollmentApiKey hh.cache id with
  | some key =>
    rw [fetch_hit E hh ctx id key hget]
    exact ⟨Or.inl rfl, rfl, rfl, fun h => by simp at h⟩
  | none =>
    rw [fetch_miss_error E hh ctx id err hget failed]
    exact ⟨Or.inr rfl, rfl, rfl, fun _ => ⟨err, failed, rfl⟩⟩

/-- C10, amended, at a canceled context over the store of the spec, which aborts the query:
`key-123` misses the empty cache, no record is returned and nothing is cached. -/
theorem fetchEnrollmentKeyRecord_canceled_witness :
    canceledCtx.Done = true ∧
    (hh0.fetchEnrollmentKeyRecord specEnv canceledCtx "key-123").2.cache = hh0.cache ∧
    (hh0.fetchEnrollmentKeyRecord specEnv canceledCtx "key-123").1.1 = none :=
  have h := fetchEnrollmentKeyRecord_canceled specEnv hh0 canceledCtx "key-123" rfl
    (fun c hc => by
      cases c with
      | mk e =>
        cases e with
        | none => simp [Context.Done] at hc
        | some e => exact ⟨e.toError, rfl⟩)
  ⟨rfl, h.2.1, h.2.2.1⟩

/-! ## Properties of the write path -/

/-- The function `createHint` when the payload marshals: one `Create`, whose error it returns. -/
theorem createHint_marshalled (E : Env κ β ρ) (hh : HintHundler κ β) (ctx : Context)
    (id : String) (hints : HintsRequest ρ) (data : Bytes)
    (enc : E.json.Marshal hints = Except.ok data) :
    createHint E hh ctx id hints =
      ((createAnswer E hh ctx id data).1.2, afterCreate E hh ctx id data) := by
  unfold createHint
  simp only [enc]
  cases h : (E.bulk.Create hh.bulker ctx E.dl.FleetHints id data [Opt.WithRefresh]).1.2 <;>
    simp [createAnswer, afterCreate, createCall, h]

/-- The function `createHint` when the payload does not marshal: no call. -/
theorem createHint_not_marshalled (E : Env κ β ρ) (hh : HintHundler κ β) (ctx : Context)
    (id : String) (hints : HintsRequest ρ) (err : Error)
    (enc : E.json.Marshal hints = Except.error err) :
    createHint E hh ctx id hints = (some err, hh) := by
  simp [createHint, enc]

/-- The method `_create` when the payload marshals. -/
theorem create_marshalled (E : Env κ β ρ) (hh : HintHundler κ β) (ctx : Context)
    (req : HintsRequest ρ) (id : String) (data : Bytes)
    (enc : E.json.Marshal { req with AgentId := id } = Except.ok data) :
    hh._create E ctx req id =
      (created (createAnswer E hh ctx id data).1.2, afterCreate E hh ctx id data) := by
  unfold HintHundler._create
  simp only [createHint_marshalled E hh ctx id _ data enc]
  cases (createAnswer E hh ctx id data).1.2 <;> rfl

/-- The method `_create` when the payload does not marshal. -/
theorem create_not_marshalled (E : Env κ β ρ) (hh : HintHundler κ β) (ctx : Context)
    (req : HintsRequest ρ) (id : String) (err : Error)
    (enc : E.json.Marshal { req with AgentId := id } = Except.error err) :
    hh._create E ctx req id = ((none, some err), hh) := by
  unfold HintHundler._create
  simp only [createHint_not_marshalled E hh ctx id _ err enc]

/-- The method `processRequest` on a body that decodes continues with `_create`. -/
theorem processRequest_decoded (E : Env κ β ρ) (hh : HintHundler κ β) (r : Request)
    (id : String) (req : HintsRequest ρ) (dec : E.json.Decode r.Body = Except.ok req) :
    hh.processRequest E r id = hh._create E r.Context req id := by
  simp [HintHundler.processRequest, decodeHintsRequest, dec]

/-- The method `processRequest` on a body that does not decode stops there. -/
theorem processRequest_not_decoded (E : Env κ β ρ) (hh : HintHundler κ β) (r : Request)
    (id : String) (err : Error) (dec : E.json.Decode r.Body = Except.error err) :
    hh.processRequest E r id = ((none, some (Error.Wrap err "decode hints request")), hh) := by
  simp [HintHundler.processRequest, decodeHintsRequest, dec]

/-- What `_create` returns is a response or an error, not both, not neither. -/
theorem created_exactlyOne (e : Option Error) : exactlyOne (created e) = true := by
  cases e <;> simp [created, exactlyOne]

/-- The method `_create` returns a response or an error, not both, not neither. -/
theorem create_exactlyOne (E : Env κ β ρ) (hh : HintHundler κ β) (ctx : Context)
    (req : HintsRequest ρ) (id : String) : exactlyOne (hh._create E ctx req id).1 = true := by
  cases enc : E.json.Marshal { req with AgentId := id } with
  | error err => rw [create_not_marshalled E hh ctx req id err enc]; simp [exactlyOne]
  | ok data => rw [create_marshalled E hh ctx req id data enc]; exact created_exactlyOne _

/-- The function `wResponse` hands the marshalled response to `w.Write`. -/
theorem wResponse_data {ω : Type} (E : Env κ β ρ) (W : ResponseWriter ω) (w : ω)
    (bodyOut : Nat) (resp : HintsResponse) (data : Bytes)
    (enc : E.json.MarshalResponse resp = Except.ok data) :
    (wResponse E W w bodyOut resp).data = some data := by
  unfold wResponse
  simp only [enc]
  cases (W.Write w data).1.2 <;> rfl

/-- C5: for every decoded request `req` and caller identity `id` (the payload being
`json.Marshal` of `req` with `AgentId` set to `id`), `_create` makes exactly one call, the
gateway's `Create` on collection `dl.FleetHints` with document key `id`, that payload and the
option `bulk.WithRefresh()`; the store is left as `Create` left it, the cache is untouched, and
the `AgentId` that `req` came with plays no part. -/
theorem create_invokes_gateway_once (E : Env κ β ρ) (hh : HintHundler κ β) (ctx : Context)
    (req : HintsRequest ρ) (id : String) (data : Bytes)
    (enc : E.json.Marshal { req with AgentId := id } = Except.ok data) :
    (hh._create E ctx req id).2.calls =
      hh.calls ++ [Call.Create ctx E.dl.FleetHints id data [Opt.WithRefresh]] ∧
    (hh._create E ctx req id).2.bulker =
      (E.bulk.Create hh.bulker ctx E.dl.FleetHints id data [Opt.WithRefresh]).2 ∧
    (hh._create E ctx req id).2.cache = hh.cache ∧
    ∀ a : String, hh._create E ctx { req with AgentId := a } id = hh._create E ctx req id := by
  refine ⟨?_, ?_, ?_, fun _ => rfl⟩ <;>
    rw [create_marshalled E hh ctx req id data enc] <;> rfl

/-- C5 at the scenario of spec §8: the body `{"agentId":""}` with identity `agent-42`
gives key `agent-42` and the payload `{"agentId":"agent-42"}`. -/
theorem create_invokes_gateway_once_witness :
    fragmentJson.Marshal { AgentId := "agent-42", Rest := () } =
      Except.ok (utf8 "\x7b\"agentId\":\"agent-42\"\x7d") ∧
    (hh0._create specEnv liveCtx { AgentId := "", Rest := () } "agent-42").2.calls =
      [Call.Create liveCtx specEnv.dl.FleetHints "agent-42"
        (utf8 "\x7b\"agentId\":\"agent-42\"\x7d") [Opt.WithRefresh]] :=
  ⟨rfl, (create_invokes_gateway_once specEnv hh0 liveCtx { AgentId := "", Rest := () }
    "agent-42" (utf8 "\x7b\"agentId\":\"agent-42\"\x7d") rfl).1⟩

/-- C6: for every request whose body decodes, `processRequest` returns exactly one of a
response and an error; if the gateway's `Create` succeeds, a nil error and the response with
`Action = "created"`; if `Create` fails with `e`, a nil response and `e` itself.  `wResponse`
hands to `w.Write` the JSON encoding of the response, which for the schema of the spec is
`{"action":"created"}`. -/
theorem processRequest_response_or_error (E : Env κ β ρ) (hh : HintHundler κ β) (r : Request)
    (id : String) (req : HintsRequest ρ) (dec : E.json.Decode r.Body = Except.ok req) :
    exactlyOne (hh.processRequest E r id).1 = true ∧
    (∀ (data : Bytes) (s : String) (b : β),
      E.json.Marshal { req with AgentId := id } = Except.ok data →
      E.bulk.Create hh.bulker r.Context E.dl.FleetHints id data [Opt.WithRefresh] =
        ((s, none), b) →
      (hh.processRequest E r id).1 = (some { Action := "created" }, none)) ∧
    (∀ (data : Bytes) (s : String) (e : Error) (b : β),
      E.json.Marshal { req with AgentId := id } = Except.ok data →
      E.bulk.Create hh.bulker r.Context E.dl.FleetHints id data [Opt.WithRefresh] =
        ((s, some e), b) →
      (hh.processRequest E r id).1 = (none, some e)) ∧
    (∀ (ω : Type) (W : ResponseWriter ω) (w : ω) (n : Nat) (data : Bytes),
      E.json.MarshalResponse { Action := "created" } = Except.ok data →
      (wResponse E W w n { Action := "created" }).data = some data) ∧
    marshalHintsResponse { Action := "created" } = utf8 "\x7b\"action\":\"created\"\x7d" := by
  rw [processRequest_decoded E hh r id req dec]
  refine ⟨create_exactlyOne E hh r.Context req id, ?_, ?_, ?_, rfl⟩
  · intro data s b enc ok
    rw [create_marshalled E hh r.Context req id data enc]
    simp [createAnswer, ok, created]
  · intro data s e b enc failed
    rw [create_marshalled E hh r.Context req id data enc]
    simp [createAnswer, failed, created]
  · intro ω W w n data enc
    exact wResponse_data E W w n _ data enc

/-- C6 at the request of spec §8, once over a store that accepts the write and once over a
store that rejects it. -/
theorem processRequest_response_or_error_witness :
    specEnv.json.Decode req0.Body = Except.ok { AgentId := "", Rest := () } ∧
    (hh0.processRequest specEnv req0 "agent-42").1 = (some { Action := "created" }, none) ∧
    (hhDown.processRequest specEnv req0 "agent-42").1 = (none, some StoreWriteError) :=
  ⟨rfl,
    (processRequest_response_or_error specEnv hh0 req0 "agent-42"
      { AgentId := "", Rest := () } rfl).2.1 _ _ _ rfl rfl,
    (processRequest_response_or_error specEnv hhDown req0 "agent-42"
      { AgentId := "", Rest := () } rfl).2.2.1 _ _ _ _ rfl rfl⟩

/-- C7: for every request body on which decoding into `HintsRequest` fails, with `err`,
`processRequest` returns a nil response and the decode error (`err` wrapped with
`decode hints request`, the `ErrDecodeRequest` of the spec), and makes no call at all, so the
gateway's `Create` is not invoked; the store and the cache are untouched. -/
theorem processRequest_malformed (E : Env κ β ρ) (hh : HintHundler κ β) (r : Request)
    (id : String) (err : Error) (dec : E.json.Decode r.Body = Except.error err) :
    (hh.processRequest E r id).1 = (none, some (Error.Wrap err "decode hints request")) ∧
    (hh.processRequest E r id).2.calls = hh.calls ∧
    (hh.processRequest E r id).2.bulker = hh.bulker ∧
    (hh.processRequest E r id).2.cache = hh.cache := by
  rw [processRequest_not_decoded E hh r id err dec]
  exact ⟨rfl, rfl, rfl, rfl⟩

/-- C7 at a truncated body, `{"agentId":`. -/
theorem processRequest_malformed_witness :
    specEnv.json.Decode reqTruncated.Body = Except.error errUnexpectedEOF ∧
    ((hh0.processRequest specEnv reqTruncated "agent-42").1 =
      (none, some (Error.Wrap errUnexpectedEOF "decode hints request")) ∧
    (hh0.processRequest specEnv reqTruncated "agent-42").2.calls = hh0.calls ∧
    (hh0.processRequest specEnv reqTruncated "agent-42").2.bulker = hh0.bulker ∧
    (hh0.processRequest specEnv reqTruncated "agent-42").2.cache = hh0.cache) :=
  ⟨rfl, processRequest_malformed specEnv hh0 reqTruncated "agent-42" errUnexpectedEOF rfl⟩

/-- C8, as stated, fails: over a store in which no credential is active (the validator
rejects `key-456` as inactive and `agent-42` as absent), `handleHints` answers the request of
spec §8 with `created` and the gateway's `Create` is invoked. -/
theorem handleHints_creates_without_credential :
    (storeNoActive.keys.all (fun k => !k.Active)) = true ∧
    (hhNoActive.fetchEnrollmentKeyRecord specEnv liveCtx "key-456").1 =
      (none, some Error.ErrInactiveEnrollmentKey) ∧
    (hhNoActive.fetchEnrollmentKeyRecord specEnv liveCtx "agent-42").1 =
      (none, some (Error.Wrap Error.ErrNotFound "FindEnrollmentAPIKey")) ∧
    (hhNoActive.handleHints specEnv req0 "agent-42").1 = (some { Action := "created" }, none) ∧
    (hhNoActive.handleHints specEnv req0 "agent-42").2.calls =
      [Call.Create liveCtx specEnv.dl.FleetHints "agent-42"
        (utf8 "\x7b\"agentId\":\"agent-42\"\x7d") [Opt.WithRefresh]] :=
  ⟨rfl, rfl, rfl, rfl, rfl⟩

/-- C8, amended: `HintHundler.handleHints` takes no validation flag and never invokes the
credential validator (the calls are commented out in the source).  It is `processRequest`; it
leaves the cache unchanged; the only call it can make is the gateway's `Create`, so no
`GetEnrollmentApiKey`, `SetEnrollmentApiKey` or `FindEnrollmentAPIKey`; its result does not
depend on the content of the cache; and whenever the body decodes and the payload marshals,
`Create` is invoked, whatever the state of any credential. -/
theorem handleHints_never_validates (E : Env κ β ρ) (hh : HintHundler κ β) (r : Request)
    (id : String) :
    hh.handleHints E r id = hh.processRequest E r id ∧
    (hh.handleHints E r id).2.cache = hh.cache ∧
    ((hh.handleHints E r id).2.calls = hh.calls ∨
      ∃ data, (hh.handleHints E r id).2.calls =
        hh.calls ++ [Call.Create r.Context E.dl.FleetHints id data [Opt.WithRefresh]]) ∧
    (∀ c : κ, (HintHundler.handleHints E { hh with cache := c } r id).1 =
      (hh.handleHints E r id).1) ∧
    (∀ (req : HintsRequest ρ) (data : Bytes), E.json.Decode r.Body = Except.ok req →
      E.json.Marshal { req with AgentId := id } = Except.ok data →
      (hh.handleHints E r id).2.calls =
        hh.calls ++ [Call.Create r.Context E.dl.FleetHints id data [Opt.WithRefresh]]) := by
  unfold HintHundler.handleHints
  refine ⟨rfl, ?_, ?_, ?_, ?_⟩
  · cases dec : E.json.Decode r.Body with
    | error err => rw [processRequest_not_decoded E hh r id err dec]
    | ok req =>
      rw [processRequest_decoded E hh r id req dec]
      cases enc : E.json.Marshal { req with AgentId := id } with
      | error err => rw [create_not_marshalled E hh r.Context req id err enc]
      | ok data => rw [create_marshalled E hh r.Context req id data enc]; rfl
  · cases dec : E.json.Decode r.Body with
    | error err => rw [processRequest_not_decoded E hh r id err dec]; exact Or.inl rfl
    | ok req =>
      rw [processRequest_decoded E hh r id req dec]
      cases enc : E.json.Marshal { req with AgentId := id } with
      | error err => rw [create_not_marshalled E hh r.Context req id err enc]; exact Or.inl rfl
      | ok data =>
        rw [create_marshalled E hh r.Context req id data enc]; exact Or.inr ⟨data, rfl⟩
  · intro c
    cases dec : E.json.Decode r.Body with
    | error err =>
      rw [processRequest_not_decoded E hh r id err dec,
        processRequest_not_decoded E { hh with cache := c } r id err dec]
    | ok req =>
      rw [processRequest_decoded E hh r id req dec,
        processRequest_decoded E { hh with cache := c } r id req dec]
      cases enc : E.json.Marshal { req with AgentId := id } with
      | error err =>
        rw [create_not_marshalled E hh r.Context req id err enc,
          create_not_marshalled E { hh with cache := c } r.Context req id err enc]
      | ok data =>
        rw [create_marshalled E hh r.Context req id data enc,
          create_marshalled E { hh with cache := c } r.Context req id data enc]
        rfl
  · intro req data dec enc
    rw [processRequest_decoded E hh r id req dec,
      create_marshalled E hh r.Context req id data enc]
    rfl

/-- C8, amended, at the request of spec §8 over the store without an active credential: the
cache is not touched and `Create` is the only call. -/
theorem handleHints_never_validates_witness :
    (specEnv.json.Decode req0.Body = Except.ok { AgentId := "", Rest := () } ∧
      specEnv.json.Marshal { AgentId := "agent-42", Rest := () } =
        Except.ok (utf8 "\x7b\"agentId\":\"agent-42\"\x7d")) ∧
    (hhNoActive.handleHints specEnv req0 "agent-42").2.cache = hhNoActive.cache ∧
    (hhNoActive.handleHints specEnv req0 "agent-42").2.calls =
      hhNoActive.calls ++ [Call.Create req0.Context specEnv.dl.FleetHints "agent-42"
        (utf8 "\x7b\"agentId\":\"agent-42\"\x7d") [Opt.WithRefresh]] :=
  ⟨⟨rfl, rfl⟩, (handleHints_never_validates specEnv hhNoActive req0 "agent-42").2.1,
    (handleHints_never_validates specEnv hhNoActive req0 "agent-42").2.2.2.2
      { AgentId := "", Rest := () } _ rfl rfl⟩

/-! ## Read after write on the gateway of the spec -/

/-- A `Create` with the directive that reports no error leaves the document readable. -/
theorem Gateway.read_create (g : Gateway) (ctx : Context) (index id : String) (body : Bytes)
    (h : (g.Create ctx index id body [Opt.WithRefresh]).1.2 = none) :
    (g.Create ctx index id body [Opt.WithRefresh]).2.Read index id = (some body, none) := by
  unfold Gateway.Create at h ⊢
  cases hc : ctx.Err with
  | some e => simp [hc] at h
  | none =>
    by_cases hd : (g.down || g.holds index id) = true
    · simp [hc, hd] at h
    · simp [hc, hd, Gateway.Read]

/-- C9: on the gateway of spec §4.1, when `Create` of payload `body` under key `id` of
collection `index` with the immediate-visibility directive succeeds, an immediate `Read` of
that key from that collection returns `body` unchanged.  In particular, when `_create` succeeds
over this gateway, reading the caller's identity from `dl.FleetHints` returns the encoding of
the request with `AgentId` set to that identity. -/
theorem gateway_read_after_create :
    (∀ (g : Gateway) (ctx : Context) (index id : String) (body : Bytes) (s : String)
      (g1 : Gateway), g.Create ctx index id body [Opt.WithRefresh] = ((s, none), g1) →
      g1.Read index id = (some body, none)) ∧
    (∀ (C : Cache κ) (D : DL Gateway) (J : Json ρ) (hh : HintHundler κ Gateway)
      (ctx : Context) (req : HintsRequest ρ) (id : String),
      (hh._create ⟨C, gatewayBulk, D, J⟩ ctx req id).1.2 = none →
      ∃ data, J.Marshal { req with AgentId := id } = Except.ok data ∧
        (hh._create ⟨C, gatewayBulk, D, J⟩ ctx req id).2.bulker.Read D.FleetHints id =
          (some data, none)) := by
  constructor
  · intro g ctx index id body s g1 ok
    have h := Gateway.read_create g ctx index id body (by rw [ok])
    rw [ok] at h
    exact h
  · intro C D J hh ctx req id hnone
    cases enc : J.Marshal { req with AgentId := id } with
    | error err =>
      rw [create_not_marshalled ⟨C, gatewayBulk, D, J⟩ hh ctx req id err enc] at hnone
      simp at hnone
    | ok data =>
      refine ⟨data, rfl, ?_⟩
      rw [create_marshalled ⟨C, gatewayBulk, D, J⟩ hh ctx req id data enc] at hnone ⊢
      apply Gateway.read_create hh.bulker ctx D.FleetHints id data
      cases h : (createAnswer ⟨C, gatewayBulk, D, J⟩ hh ctx id data).1.2 with
      | none => exact h
      | some e => rw [h] at hnone; simp [created] at hnone

/-- C9 at the payload and identity of spec §8: written with the directive, the document is
read back unchanged. -/
theorem gateway_read_after_create_witness :
    store0.Create liveCtx ".fleet-hints" "agent-42" (utf8 "\x7b\"agentId\":\"agent-42\"\x7d")
        [Opt.WithRefresh] =
      (("agent-42", none), (hh0._create specEnv liveCtx { AgentId := "", Rest := () }
        "agent-42").2.bulker) ∧
    (hh0._create specEnv liveCtx { AgentId := "", Rest := () } "agent-42").2.bulker.Read
        ".fleet-hints" "agent-42" =
      (some (utf8 "\x7b\"agentId\":\"agent-42\"\x7d"), none) :=
  ⟨rfl, (@gateway_read_after_create MemCache Unit).1 store0 liveCtx ".fleet-hints"
    "agent-42" (utf8 "\x7b\"agentId\":\"agent-42\"\x7d") "agent-42" _ rfl⟩

/-- A write without the directive is not readable until the store refreshes. -/
theorem gateway_deferred_write :
    (store0.Create liveCtx ".fleet-hints" "agent-42" [1, 2, 3] []).2.Read
        ".fleet-hints" "agent-42" = (none, some Error.ErrNotFound) ∧
    (store0.Create liveCtx ".fleet-hints" "agent-42" [1, 2, 3] []).2.Refresh.Read
        ".fleet-hints" "agent-42" = (some [1, 2, 3], none) :=
  ⟨rfl, rfl⟩

end FleetServer
